import Mathlib

/-!
Shallow embedding of `pkg/artifactory/resource/webhook/resource_artifactory_webhook.go`
from the `terraform-provider-artifactory` repository, together with theorems about
its behaviour.

Modelling conventions:
* Go `map[string]interface{}` values are modelled by the inductive `GoVal` and a
  `GoMap` association list; a lookup of an absent key yields `GoVal.vnull`, which is
  Go's zero `interface{}` value.
* Go slices are Lean lists; a `nil`-able slice or interface field is an `Option`.
* Fallible operations return `Except String Unit` or pair the new resource state
  with `Option String` diagnostics (`none` = no error).
* HTTP exchanges are modelled by passing the transport outcome (`TransportResult`)
  as an explicit argument to the CRUD functions, which mirror the branch structure
  of the Go code.
-/

namespace Webhook

/-- Go `interface{}` values as they occur in terraform raw state:
`nil`, strings, booleans, nested objects and lists. -/
inductive GoVal where
  | vnull : GoVal
  | vstr : String → GoVal
  | vbool : Bool → GoVal
  | vobj : List (String × GoVal) → GoVal
  | vlist : List GoVal → GoVal

/-- A Go `map[string]interface{}`, as an association list with unique keys. -/
abbrev GoMap := List (String × GoVal)

/-- Go map indexing `m[k]`: the zero value `nil` when the key is absent. -/
def goGet (m : GoMap) (k : String) : GoVal := (m.lookup k).getD GoVal.vnull

/-- Go `delete(m, k)`. -/
def goDelete (m : GoMap) (k : String) : GoMap := m.filter (fun p => p.1 != k)

/-- Go map assignment `m[k] = v` (overwrites any previous binding). -/
def goSet (m : GoMap) (k : String) (v : GoVal) : GoMap := goDelete m k ++ [(k, v)]

/-- `TypesSupported` from the source: the fixed 12-domain enumeration. -/
def TypesSupported : List String :=
  ["artifact", "artifact_property", "docker", "build", "release_bundle",
   "distribution", "artifactory_release_bundle", "destination", "user",
   "release_bundle_v2", "release_bundle_v2_promotion", "artifact_lifecycle"]

/-- `DomainEventTypesSupported` from the source: per-domain allowed event types. -/
def DomainEventTypesSupported : List (String × List String) :=
  [("artifact", ["deployed", "deleted", "moved", "copied", "cached"]),
   ("artifact_property", ["added", "deleted"]),
   ("docker", ["pushed", "deleted", "promoted"]),
   ("build", ["uploaded", "deleted", "promoted"]),
   ("release_bundle", ["created", "signed", "deleted"]),
   ("distribution", ["distribute_started", "distribute_completed", "distribute_aborted",
     "distribute_failed", "delete_started", "delete_completed", "delete_failed"]),
   ("artifactory_release_bundle", ["received", "delete_started", "delete_completed",
     "delete_failed"]),
   ("destination", ["received", "delete_started", "delete_completed", "delete_failed"]),
   ("user", ["locked"]),
   ("release_bundle_v2", ["release_bundle_v2_started", "release_bundle_v2_failed",
     "release_bundle_v2_completed"]),
   ("release_bundle_v2_promotion", ["release_bundle_v2_promotion_completed",
     "release_bundle_v2_promotion_failed", "release_bundle_v2_promotion_started"]),
   ("artifact_lifecycle", ["archive", "restore"])]

/-- The event types allowed for a domain: Go `DomainEventTypesSupported[webhookType]`
(the `nil` slice, here `[]`, when the domain is unknown). -/
def supportedEventTypes (domain : String) : List String :=
  (DomainEventTypesSupported.lookup domain).getD []

/-- `KeyValuePair` from the source (a custom HTTP header entry). -/
structure KeyValuePair where
  name : String
  value : String
deriving DecidableEq

/-- `unpackKeyValuePair` from the source: turns the header map into a list of
`KeyValuePair` entries (one per map binding, in iteration order). -/
def unpackKeyValuePair (keyValuePairs : List (String × String)) : List KeyValuePair :=
  keyValuePairs.map (fun p => { name := p.1, value := p.2 })

/-- Go map assignment for a `map[string]interface{}` of strings: overwrite the
binding when the key is present, otherwise add a new binding. -/
def strMapSet (m : List (String × String)) (k v : String) : List (String × String) :=
  if m.any (fun p => p.1 == k) then m.map (fun p => if p.1 == k then (k, v) else p)
  else m ++ [(k, v)]

/-- `packKeyValuePair` from the source: rebuilds the header map from the list. -/
def packKeyValuePair (keyValuePairs : List KeyValuePair) : List (String × String) :=
  keyValuePairs.foldl (fun m kv => strMapSet m kv.name kv.value) []

/-- `ResourceStateUpgradeV1` from the source: version-1 → version-2 raw state
upgrade.  Synthesizes a one-element `handler` list from the flat
`url`/`secret`/`proxy`/`custom_http_headers` fields, then deletes those fields. -/
def ResourceStateUpgradeV1 (rawState : GoMap) : GoMap :=
  let withHandler := goSet rawState "handler"
    (GoVal.vlist [GoVal.vobj
      [("url", goGet rawState "url"),
       ("secret", goGet rawState "secret"),
       ("proxy", goGet rawState "proxy"),
       ("custom_http_headers", goGet rawState "custom_http_headers")]])
  goDelete (goDelete (goDelete (goDelete withHandler "url") "secret") "proxy")
    "custom_http_headers"

/-- `Handler` from the source: a wire delivery-handler entry.  The `nil`-able
`CustomHttpHeaders` slice is an `Option`. -/
structure Handler where
  handlerType : String
  url : String
  secret : String
  useSecretForSigning : Bool
  proxy : String
  customHttpHeaders : Option (List KeyValuePair)
deriving DecidableEq

/-- A handler entry as it sits in terraform state/configuration (the
`map[string]interface{}` the source reads with `ok`-checked indexing);
an `Option.none` field models an absent key. -/
structure RawHandler where
  url : String
  secret : Option String := none
  use_secret_for_signing : Option Bool := none
  proxy : Option String := none
  custom_http_headers : Option (List (String × String)) := none
deriving DecidableEq

/-- `packSecret` from the source: scan the `handler` entries of local state and,
whenever a handler's `url` equals the given url, take its `secret`; the string
zero value `""` if none matches. -/
def packSecret (stateHandlers : List RawHandler) (url : String) : String :=
  stateHandlers.foldl
    (fun secret h => if h.url == url then (h.secret.getD "") else secret) ""

/-- A packed handler: the `map[string]interface{}` built by `packHandlers`
(fields `url`, `secret`, `use_secret_for_signing`, `proxy`, and
`custom_http_headers` only when the wire handler's header slice is non-`nil`). -/
structure PackedHandler where
  url : String
  secret : String
  use_secret_for_signing : Bool
  proxy : String
  custom_http_headers : Option (List (String × String))
deriving DecidableEq

/-- `packHandlers` from the source: pack each wire handler, restoring the secret
from local state by url via `packSecret`. -/
def packHandlers (stateHandlers : List RawHandler) (handlers : List Handler) :
    List PackedHandler :=
  handlers.map (fun h =>
    { url := h.url
      secret := packSecret stateHandlers h.url
      use_secret_for_signing := h.useSecretForSigning
      proxy := h.proxy
      custom_http_headers := h.customHttpHeaders.map packKeyValuePair })

/-- `unpackHandlers` from the source (inside `unpackWebhook`): keep every entry
whose `url` is non-empty, build a wire `Handler` with `handler_type`
`"webhook"` and the entry's fields (Go zero values where a key is absent). -/
def unpackHandlers (entries : List RawHandler) : List Handler :=
  match entries with
  | [] => []
  | h :: rest =>
    if h.url != "" then
      { handlerType := "webhook"
        url := h.url
        secret := h.secret.getD ""
        useSecretForSigning := h.use_secret_for_signing.getD false
        proxy := h.proxy.getD ""
        customHttpHeaders := h.custom_http_headers.map unpackKeyValuePair }
        :: unpackHandlers rest
    else unpackHandlers rest

/-- The loop body of `eventTypesDiff`: first unsupported event type wins. -/
def checkEventTypes (domain : String) (supported : List String) :
    List String → Except String Unit
  | [] => Except.ok ()
  | t :: ts =>
    if supported.contains t then checkEventTypes domain supported ts
    else Except.error ("event_type " ++ t ++ " not supported for domain " ++ domain)

/-- `eventTypesDiff` from the source: diff validation of the requested event
types against `DomainEventTypesSupported[webhookType]`. -/
def eventTypesDiff (domain : String) (eventTypes : List String) : Except String Unit :=
  if eventTypes.isEmpty then Except.ok ()
  else checkEventTypes domain (supportedEventTypes domain) eventTypes

/-- `BaseWebhookCriteria` from the source file where it is declared (not under
`src/`); its two fields are read explicitly by `unpackCriteria` in the source:
the shared include/exclude pattern lists. -/
structure BaseWebhookCriteria where
  includePatterns : List String
  excludePatterns : List String
deriving DecidableEq

/-- Modelled from the spec: a raw `criteria` configuration block (the
`map[string]interface{}` that `unpackCriteria` passes to the per-domain
extractor), with the common pattern fields plus the domain-specific boolean
flags described in the spec's data model. -/
structure RawCriteria where
  include_patterns : List String := []
  exclude_patterns : List String := []
  anyLocal : Bool := false
  anyRemote : Bool := false
  anyFederated : Bool := false
  anyBuild : Bool := false
  anyReleaseBundle : Bool := false
deriving DecidableEq

/-- Modelled from the spec: the domain-discriminated criteria variants
(`RepoWebhookCriteria`, `BuildWebhookCriteria`, `ReleaseBundleWebhookCriteria`,
`ReleaseBundleV2WebhookCriteria`, `ReleaseBundleV2PromotionWebhookCriteria`,
`EmptyWebhookCriteria`), whose Go declarations are outside `src/`. -/
inductive WebhookCriteria where
  | repo (base : BaseWebhookCriteria) (anyLocal anyRemote anyFederated : Bool)
  | build (base : BaseWebhookCriteria) (anyBuild : Bool)
  | releaseBundle (base : BaseWebhookCriteria) (anyReleaseBundle : Bool)
  | releaseBundleV2 (base : BaseWebhookCriteria) (anyReleaseBundle : Bool)
  | releaseBundleV2Promotion (base : BaseWebhookCriteria)
  | empty
deriving DecidableEq

/-- Modelled from the spec: `unpackRepoCriteria` (declared outside `src/`). -/
def unpackRepoCriteria (id : RawCriteria) (base : BaseWebhookCriteria) :
    WebhookCriteria :=
  WebhookCriteria.repo base id.anyLocal id.anyRemote id.anyFederated

/-- Modelled from the spec: `unpackBuildCriteria` (declared outside `src/`). -/
def unpackBuildCriteria (id : RawCriteria) (base : BaseWebhookCriteria) :
    WebhookCriteria :=
  WebhookCriteria.build base id.anyBuild

/-- Modelled from the spec: `unpackReleaseBundleCriteria` (declared outside
`src/`). -/
def unpackReleaseBundleCriteria (id : RawCriteria) (base : BaseWebhookCriteria) :
    WebhookCriteria :=
  WebhookCriteria.releaseBundle base id.anyReleaseBundle

/-- Modelled from the spec: `unpackReleaseBundleV2Criteria` (declared outside
`src/`). -/
def unpackReleaseBundleV2Criteria (id : RawCriteria) (base : BaseWebhookCriteria) :
    WebhookCriteria :=
  WebhookCriteria.releaseBundleV2 base id.anyReleaseBundle

/-- Modelled from the spec: `unpackReleaseBundleV2PromotionCriteria` (declared
outside `src/`). -/
def unpackReleaseBundleV2PromotionCriteria (id : RawCriteria)
    (base : BaseWebhookCriteria) : WebhookCriteria :=
  WebhookCriteria.releaseBundleV2Promotion base

/-- Modelled from the spec: `unpackEmptyCriteria` (declared outside `src/`). -/
def unpackEmptyCriteria (id : RawCriteria) (base : BaseWebhookCriteria) :
    WebhookCriteria :=
  WebhookCriteria.empty

/-- `domainCriteriaLookup` from the source: per-domain zero value of the
criteria variant used as the decode target on read. -/
def domainCriteriaLookup : List (String × WebhookCriteria) :=
  [("artifact", WebhookCriteria.repo ⟨[], []⟩ false false false),
   ("artifact_property", WebhookCriteria.repo ⟨[], []⟩ false false false),
   ("docker", WebhookCriteria.repo ⟨[], []⟩ false false false),
   ("build", WebhookCriteria.build ⟨[], []⟩ false),
   ("release_bundle", WebhookCriteria.releaseBundle ⟨[], []⟩ false),
   ("distribution", WebhookCriteria.releaseBundle ⟨[], []⟩ false),
   ("artifactory_release_bundle", WebhookCriteria.releaseBundle ⟨[], []⟩ false),
   ("destination", WebhookCriteria.releaseBundle ⟨[], []⟩ false),
   ("user", WebhookCriteria.empty),
   ("release_bundle_v2", WebhookCriteria.releaseBundleV2 ⟨[], []⟩ false),
   ("release_bundle_v2_promotion", WebhookCriteria.releaseBundleV2Promotion ⟨[], []⟩),
   ("artifact_lifecycle", WebhookCriteria.empty)]

/-- `domainUnpackLookup` from the source: per-domain criteria extractor
(the keys are from the source; the functions are the spec-modelled extractors
above). -/
def domainUnpackLookup :
    List (String × (RawCriteria → BaseWebhookCriteria → WebhookCriteria)) :=
  [("artifact", unpackRepoCriteria),
   ("artifact_property", unpackRepoCriteria),
   ("docker", unpackRepoCriteria),
   ("build", unpackBuildCriteria),
   ("release_bundle", unpackReleaseBundleCriteria),
   ("distribution", unpackReleaseBundleCriteria),
   ("artifactory_release_bundle", unpackReleaseBundleCriteria),
   ("destination", unpackReleaseBundleCriteria),
   ("user", unpackEmptyCriteria),
   ("release_bundle_v2", unpackReleaseBundleV2Criteria),
   ("release_bundle_v2_promotion", unpackReleaseBundleV2PromotionCriteria),
   ("artifact_lifecycle", unpackEmptyCriteria)]

/-- Modelled from the spec: `packRepoCriteria` (declared outside `src/`) —
flattens the repo variant's wire camelCase fields to config snake_case keys. -/
def packRepoCriteria (criteria : GoMap) : GoMap :=
  [("any_local", goGet criteria "anyLocal"),
   ("any_remote", goGet criteria "anyRemote"),
   ("any_federated", goGet criteria "anyFederated")]

/-- Modelled from the spec: `packBuildCriteria` (declared outside `src/`). -/
def packBuildCriteria (criteria : GoMap) : GoMap :=
  [("any_build", goGet criteria "anyBuild")]

/-- Modelled from the spec: `packReleaseBundleCriteria` (declared outside
`src/`). -/
def packReleaseBundleCriteria (criteria : GoMap) : GoMap :=
  [("any_release_bundle", goGet criteria "anyReleaseBundle")]

/-- Modelled from the spec: `packReleaseBundleV2Criteria` (declared outside
`src/`). -/
def packReleaseBundleV2Criteria (criteria : GoMap) : GoMap :=
  [("any_release_bundle", goGet criteria "anyReleaseBundle")]

/-- Modelled from the spec: `packReleaseBundleV2PromotionCriteria` (declared
outside `src/`). -/
def packReleaseBundleV2PromotionCriteria (criteria : GoMap) : GoMap :=
  []

/-- Modelled from the spec: `packEmptyCriteria` (declared outside `src/`) —
the empty variant has no domain-specific fields. -/
def packEmptyCriteria (criteria : GoMap) : GoMap :=
  []

/-- `domainPackLookup` from the source: per-domain criteria packer (keys from
the source; function bodies spec-modelled above). -/
def domainPackLookup : List (String × (GoMap → GoMap)) :=
  [("artifact", packRepoCriteria),
   ("artifact_property", packRepoCriteria),
   ("docker", packRepoCriteria),
   ("build", packBuildCriteria),
   ("release_bundle", packReleaseBundleCriteria),
   ("distribution", packReleaseBundleCriteria),
   ("artifactory_release_bundle", packReleaseBundleCriteria),
   ("destination", packReleaseBundleCriteria),
   ("user", packEmptyCriteria),
   ("release_bundle_v2", packReleaseBundleV2Criteria),
   ("release_bundle_v2_promotion", packReleaseBundleV2PromotionCriteria),
   ("artifact_lifecycle", packEmptyCriteria)]

/-- `emptyCriteriaValidation` from the source: always succeeds. -/
def emptyCriteriaValidation (criteria : GoMap) : Except String Unit :=
  Except.ok ()

/-- Modelled from the spec: `repoCriteriaValidation` (declared outside `src/`) —
rejects a conflicting any-flag plus explicit patterns, else a no-op. -/
def repoCriteriaValidation (criteria : GoMap) : Except String Unit :=
  match goGet criteria "any_local", goGet criteria "include_patterns" with
  | GoVal.vbool true, GoVal.vlist (_ :: _) => Except.error "conflicting criteria"
  | _, _ => Except.ok ()

/-- Modelled from the spec: `buildCriteriaValidation` (declared outside
`src/`). -/
def buildCriteriaValidation (criteria : GoMap) : Except String Unit :=
  match goGet criteria "any_build", goGet criteria "include_patterns" with
  | GoVal.vbool true, GoVal.vlist (_ :: _) => Except.error "conflicting criteria"
  | _, _ => Except.ok ()

/-- Modelled from the spec: `releaseBundleCriteriaValidation` (declared outside
`src/`). -/
def releaseBundleCriteriaValidation (criteria : GoMap) : Except String Unit :=
  match goGet criteria "any_release_bundle", goGet criteria "include_patterns" with
  | GoVal.vbool true, GoVal.vlist (_ :: _) => Except.error "conflicting criteria"
  | _, _ => Except.ok ()

/-- Modelled from the spec: `releaseBundleV2CriteriaValidation` (declared
outside `src/`). -/
def releaseBundleV2CriteriaValidation (criteria : GoMap) : Except String Unit :=
  match goGet criteria "any_release_bundle", goGet criteria "include_patterns" with
  | GoVal.vbool true, GoVal.vlist (_ :: _) => Except.error "conflicting criteria"
  | _, _ => Except.ok ()

/-- `domainCriteriaValidationLookup` from the source: per-domain criteria
validator (keys from the source; `emptyCriteriaValidation` is from the source,
the others are spec-modelled). -/
def domainCriteriaValidationLookup : List (String × (GoMap → Except String Unit)) :=
  [("artifact", repoCriteriaValidation),
   ("artifact_property", repoCriteriaValidation),
   ("docker", repoCriteriaValidation),
   ("build", buildCriteriaValidation),
   ("release_bundle", releaseBundleCriteriaValidation),
   ("distribution", releaseBundleCriteriaValidation),
   ("artifactory_release_bundle", releaseBundleCriteriaValidation),
   ("destination", releaseBundleCriteriaValidation),
   ("user", emptyCriteriaValidation),
   ("release_bundle_v2", releaseBundleV2CriteriaValidation),
   ("release_bundle_v2_promotion", emptyCriteriaValidation),
   ("artifact_lifecycle", emptyCriteriaValidation)]

/-- Modelled from the spec: a configuration-shape descriptor for a domain's
`criteria` and `handler` blocks, parameterized by schema version (the schema
builder functions are declared outside `src/`). -/
structure WebhookSchemaDesc where
  webhookType : String
  version : Nat
  isCustom : Bool
  shape : String
deriving DecidableEq

/-- Modelled from the spec: `repoWebhookSchema` (declared outside `src/`). -/
def repoWebhookSchema (webhookType : String) (version : Nat) (isCustom : Bool) :
    WebhookSchemaDesc := ⟨webhookType, version, isCustom, "repo"⟩

/-- Modelled from the spec: `buildWebhookSchema` (declared outside `src/`). -/
def buildWebhookSchema (webhookType : String) (version : Nat) (isCustom : Bool) :
    WebhookSchemaDesc := ⟨webhookType, version, isCustom, "build"⟩

/-- Modelled from the spec: `releaseBundleWebhookSchema` (declared outside
`src/`). -/
def releaseBundleWebhookSchema (webhookType : String) (version : Nat)
    (isCustom : Bool) : WebhookSchemaDesc := ⟨webhookType, version, isCustom, "release_bundle"⟩

/-- Modelled from the spec: `userWebhookSchema` (declared outside `src/`). -/
def userWebhookSchema (webhookType : String) (version : Nat) (isCustom : Bool) :
    WebhookSchemaDesc := ⟨webhookType, version, isCustom, "user"⟩

/-- Modelled from the spec: `releaseBundleV2WebhookSchema` (declared outside
`src/`). -/
def releaseBundleV2WebhookSchema (webhookType : String) (version : Nat)
    (isCustom : Bool) : WebhookSchemaDesc := ⟨webhookType, version, isCustom, "release_bundle_v2"⟩

/-- Modelled from the spec: `releaseBundleV2PromotionWebhookSchema` (declared
outside `src/`). -/
def releaseBundleV2PromotionWebhookSchema (webhookType : String) (version : Nat)
    (isCustom : Bool) : WebhookSchemaDesc :=
  ⟨webhookType, version, isCustom, "release_bundle_v2_promotion"⟩

/-- Modelled from the spec: `artifactLifecycleWebhookSchema` (declared outside
`src/`). -/
def artifactLifecycleWebhookSchema (webhookType : String) (version : Nat)
    (isCustom : Bool) : WebhookSchemaDesc :=
  ⟨webhookType, version, isCustom, "artifact_lifecycle"⟩

/-- `domainSchemaLookup` from the source: per-domain configuration-shape
descriptor, parameterized by schema version (keys from the source; descriptor
values spec-modelled). -/
def domainSchemaLookup (version : Nat) (isCustom : Bool) (webhookType : String) :
    List (String × WebhookSchemaDesc) :=
  [("artifact", repoWebhookSchema webhookType version isCustom),
   ("artifact_property", repoWebhookSchema webhookType version isCustom),
   ("docker", repoWebhookSchema webhookType version isCustom),
   ("build", buildWebhookSchema webhookType version isCustom),
   ("release_bundle", releaseBundleWebhookSchema webhookType version isCustom),
   ("distribution", releaseBundleWebhookSchema webhookType version isCustom),
   ("artifactory_release_bundle", releaseBundleWebhookSchema webhookType version isCustom),
   ("destination", releaseBundleWebhookSchema webhookType version isCustom),
   ("user", userWebhookSchema webhookType version isCustom),
   ("release_bundle_v2", releaseBundleV2WebhookSchema webhookType version isCustom),
   ("release_bundle_v2_promotion",
     releaseBundleV2PromotionWebhookSchema webhookType version isCustom),
   ("artifact_lifecycle", artifactLifecycleWebhookSchema webhookType version isCustom)]

/-- `unpackCriteria` from the source: reads the `criteria` set; only when it
has exactly one block does it build the base criteria from the block's
include/exclude pattern fields and dispatch to the domain's extractor; in every
other case the result stays `nil`. -/
def unpackCriteria (criteria : List RawCriteria) (webhookType : String) :
    Option WebhookCriteria :=
  match criteria with
  | [id] =>
    (domainUnpackLookup.lookup webhookType).map
      (fun f => f id ⟨id.include_patterns, id.exclude_patterns⟩)
  | _ => none

/-- `EventFilter` from the source (the polymorphic `Criteria interface{}` is the
optional criteria variant). -/
structure EventFilter where
  domain : String
  eventTypes : List String
  criteria : Option WebhookCriteria
deriving DecidableEq

/-- `BaseParams` from the source: the wire webhook subscription object. -/
structure BaseParams where
  key : String
  description : String
  enabled : Bool
  eventFilter : EventFilter
  handlers : List Handler
deriving DecidableEq

/-- `BaseParams.Id` from the source. -/
def BaseParams.Id (w : BaseParams) : String := w.key

/-- An HTTP response as the code observes it: status code and raw body. -/
structure HttpResponse where
  statusCode : Nat
  body : String
deriving DecidableEq

/-- resty `Response.IsError()`: status code greater than 399. -/
def isErrorResp (r : HttpResponse) : Bool := 399 < r.statusCode

/-- The outcome of one HTTP exchange: a transport error (`err != nil`) or a
response. -/
inductive TransportResult where
  | transportError (msg : String)
  | response (r : HttpResponse)
deriving DecidableEq

/-- The mutable per-resource state the CRUD functions touch: the resource
identity (`data.Id()` / `data.SetId`) and the packed webhook fields written on
a successful read. -/
structure ResourceState where
  id : String
  packed : Option BaseParams
deriving DecidableEq

/-- Diagnostics: `none` is success, `some msg` an error diagnostic. -/
abbrev Diagnostics := Option String

/-- The single-quote character, `Char.ofNat 39`. -/
def quoteChar : Char := Char.ofNat 39

/-- The newline character, which RE2's `.` does not match. -/
def newlineChar : Char := Char.ofNat 10

/-- The literal part of the proxy regex before `.*`: `proxy with key` followed
by a space and a single quote. -/
def proxyPatOpen : List Char := "proxy with key ".toList ++ [quoteChar]

/-- The literal part of the proxy regex after `.*`: a single quote followed by
`not found`. -/
def proxyPatClose : List Char := quoteChar :: " not found".toList

/-- Matcher for the `.*` gap followed by the closing literal: succeeds iff the
input starts with a newline-free segment followed by `proxyPatClose`. -/
def findClose : List Char → Bool
  | [] => false
  | c :: cs => proxyPatClose.isPrefixOf (c :: cs) || (c != newlineChar && findClose cs)

/-- Unanchored scan for the whole pattern
`proxy with key [quote].*[quote] not found`. -/
def scanProxy : List Char → Bool
  | [] => false
  | c :: cs =>
    (proxyPatOpen.isPrefixOf (c :: cs) && findClose ((c :: cs).drop proxyPatOpen.length))
      || scanProxy cs

/-- `retryOnProxyError` from the source: retry iff the response body matches
the regexp `proxy with key [quote].*[quote] not found` (RE2, unanchored, `.`
excluding newline). -/
def retryOnProxyError (response : HttpResponse) : Bool :=
  scanProxy response.body.toList

/-- The retry condition `createWebhook` installs via `AddRetryCondition`. -/
def createRetryCondition : HttpResponse → Bool := retryOnProxyError

/-- The retry condition `updateWebhook` installs via `AddRetryCondition`. -/
def updateRetryCondition : HttpResponse → Bool := retryOnProxyError

/-- `readWebhook` from the source: branch on transport error, 404, error
status; on success the decoded wire webhook is packed into state.  The decoded
body and the stringified error body are inputs, standing for the transport
collaborator's `SetResult`/`SetError` targets. -/
def readWebhook (st : ResourceState) (res : TransportResult) (decoded : BaseParams)
    (errBody : String) : ResourceState × Diagnostics :=
  match res with
  | TransportResult.transportError msg => (st, some msg)
  | TransportResult.response r =>
    if r.statusCode == 404 then ({ st with id := "" }, none)
    else if isErrorResp r then (st, some errBody)
    else ({ st with packed := some decoded }, none)

/-- `createWebhook` from the source: on transport error or error status,
surface the error without touching the resource identity; on success set the
identity to the webhook's key and immediately perform a read. -/
def createWebhook (st : ResourceState) (webhook : BaseParams)
    (createRes : TransportResult) (createErrBody : String)
    (readRes : TransportResult) (readDecoded : BaseParams) (readErrBody : String) :
    ResourceState × Diagnostics :=
  match createRes with
  | TransportResult.transportError msg => (st, some msg)
  | TransportResult.response r =>
    if isErrorResp r then (st, some createErrBody)
    else readWebhook { st with id := webhook.Id } readRes readDecoded readErrBody

/-- `updateWebhook` from the source: same shape as create, targeting the
existing key with PUT. -/
def updateWebhook (st : ResourceState) (webhook : BaseParams)
    (updateRes : TransportResult) (updateErrBody : String)
    (readRes : TransportResult) (readDecoded : BaseParams) (readErrBody : String) :
    ResourceState × Diagnostics :=
  match updateRes with
  | TransportResult.transportError msg => (st, some msg)
  | TransportResult.response r =>
    if isErrorResp r then (st, some updateErrBody)
    else readWebhook { st with id := webhook.Id } readRes readDecoded readErrBody

/-- `deleteWebhook` from the source: 404 clears the identity and succeeds; any
other error status is surfaced. -/
def deleteWebhook (st : ResourceState) (res : TransportResult) (errBody : String) :
    ResourceState × Diagnostics :=
  match res with
  | TransportResult.transportError msg => (st, some msg)
  | TransportResult.response r =>
    if r.statusCode == 404 then ({ st with id := "" }, none)
    else if isErrorResp r then (st, some errBody)
    else (st, none)

/-! ### Association-list lookup helpers -/

theorem lookup_cons_ite {β : Type} (a k : String) (b : β) (t : List (String × β)) :
    List.lookup k ((a, b) :: t) = if k = a then some b else List.lookup k t := by
  by_cases h : k = a
  · simp [List.lookup, h]
  · have hb : (k == a) = false := beq_eq_false_iff_ne.mpr h
    simp [List.lookup, hb, h]

theorem lookup_filter_ne {β : Type} (m : List (String × β)) {k k' : String}
    (h : k' ≠ k) : (m.filter (fun p => p.1 != k)).lookup k' = m.lookup k' := by
  induction m with
  | nil => rfl
  | cons p t ih =>
    rcases p with ⟨a, b⟩
    by_cases ha : a = k
    · subst ha
      simp [List.filter_cons, lookup_cons_ite, h, ih]
    · simp [List.filter_cons, bne_iff_ne, ha, lookup_cons_ite, ih]

theorem lookup_filter_self {β : Type} (m : List (String × β)) (k : String) :
    (m.filter (fun p => p.1 != k)).lookup k = none := by
  induction m with
  | nil => rfl
  | cons p t ih =>
    rcases p with ⟨a, b⟩
    by_cases ha : a = k
    · simp [List.filter_cons, ha, ih]
    · simp [List.filter_cons, bne_iff_ne, ha, lookup_cons_ite, Ne.symm ha, ih]

theorem lookup_append {β : Type} (l₁ l₂ : List (String × β)) (k : String) :
    (l₁ ++ l₂).lookup k = ((l₁.lookup k).orElse (fun _ => l₂.lookup k)) := by
  induction l₁ with
  | nil => rfl
  | cons p t ih =>
    rcases p with ⟨a, b⟩
    by_cases hk : k = a
    · simp [List.cons_append, lookup_cons_ite, hk]
    · simp [List.cons_append, lookup_cons_ite, hk, ih]

theorem lookup_isSome_iff_mem {β : Type} (l : List (String × β)) (k : String) :
    (l.lookup k).isSome = true ↔ k ∈ l.map Prod.fst := by
  induction l with
  | nil => simp [List.lookup]
  | cons p t ih =>
    rcases p with ⟨a, b⟩
    by_cases hk : k = a
    · simp [lookup_cons_ite, hk]
    · simp [lookup_cons_ite, hk, ih]

theorem lookup_goSet_self (m : GoMap) (k : String) (v : GoVal) :
    (goSet m k v).lookup k = some v := by
  simp [goSet, goDelete, lookup_append, lookup_filter_self, lookup_cons_ite]

theorem lookup_goSet_ne (m : GoMap) {k k' : String} (v : GoVal) (h : k' ≠ k) :
    (goSet m k v).lookup k' = m.lookup k' := by
  rw [goSet, goDelete, lookup_append, lookup_filter_ne m h, lookup_cons_ite]
  simp only [h, if_false]
  cases m.lookup k' <;> rfl

/-! ### Claim theorems -/

/-- C4: `ResourceStateUpgradeV1` replaces the flat
`url`/`secret`/`proxy`/`custom_http_headers` fields with a single-element
`handler` list carrying those values (the Go zero value `nil` standing in for
any field absent from the input, so absent fields are a no-op), removes all
four flat fields from the state, and leaves every other field unchanged. -/
theorem resourceStateUpgradeV1_spec (m : GoMap) :
    goGet (ResourceStateUpgradeV1 m) "handler" =
      GoVal.vlist [GoVal.vobj
        [("url", goGet m "url"), ("secret", goGet m "secret"),
         ("proxy", goGet m "proxy"), ("custom_http_headers", goGet m "custom_http_headers")]]
    ∧ (ResourceStateUpgradeV1 m).lookup "url" = none
    ∧ (ResourceStateUpgradeV1 m).lookup "secret" = none
    ∧ (ResourceStateUpgradeV1 m).lookup "proxy" = none
    ∧ (ResourceStateUpgradeV1 m).lookup "custom_http_headers" = none
    ∧ ∀ k, k ≠ "handler" → k ≠ "url" → k ≠ "secret" → k ≠ "proxy" →
        k ≠ "custom_http_headers" →
        (ResourceStateUpgradeV1 m).lookup k = m.lookup k := by
  unfold ResourceStateUpgradeV1
  simp only [goDelete]
  refine ⟨?_, ?_, ?_, ?_, ?_, ?_⟩
  · rw [goGet, lookup_filter_ne _ (by decide), lookup_filter_ne _ (by decide),
      lookup_filter_ne _ (by decide), lookup_filter_ne _ (by decide),
      lookup_goSet_self]
    rfl
  · rw [lookup_filter_ne _ (by decide), lookup_filter_ne _ (by decide),
      lookup_filter_ne _ (by decide), lookup_filter_self]
  · rw [lookup_filter_ne _ (by decide), lookup_filter_ne _ (by decide),
      lookup_filter_self]
  · rw [lookup_filter_ne _ (by decide), lookup_filter_self]
  · rw [lookup_filter_self]
  · intro k h1 h2 h3 h4 h5
    rw [lookup_filter_ne _ h5, lookup_filter_ne _ h4, lookup_filter_ne _ h3,
      lookup_filter_ne _ h2, lookup_goSet_ne _ _ h1]

/-- C4 witness: the spec's concrete scenario — a version-1 state with flat
`url`/`secret`/`proxy` fields upgrades to a single-element handler list, the
flat fields are gone, and the untouched `key` field survives. -/
theorem resourceStateUpgradeV1_spec_witness :
    goGet (ResourceStateUpgradeV1
        [("key", GoVal.vstr "wh1"), ("url", GoVal.vstr "https://a"),
         ("secret", GoVal.vstr "s"), ("proxy", GoVal.vstr "p")]) "handler" =
      GoVal.vlist [GoVal.vobj
        [("url", GoVal.vstr "https://a"), ("secret", GoVal.vstr "s"),
         ("proxy", GoVal.vstr "p"), ("custom_http_headers", GoVal.vnull)]]
    ∧ (ResourceStateUpgradeV1
        [("key", GoVal.vstr "wh1"), ("url", GoVal.vstr "https://a"),
         ("secret", GoVal.vstr "s"), ("proxy", GoVal.vstr "p")]).lookup "url" = none
    ∧ (ResourceStateUpgradeV1
        [("key", GoVal.vstr "wh1"), ("url", GoVal.vstr "https://a"),
         ("secret", GoVal.vstr "s"), ("proxy", GoVal.vstr "p")]).lookup "key" =
        some (GoVal.vstr "wh1") := by
  refine ⟨(resourceStateUpgradeV1_spec _).1.trans ?_,
    (resourceStateUpgradeV1_spec _).2.1,
    ((resourceStateUpgradeV1_spec _).2.2.2.2.2 "key" (by decide) (by decide)
      (by decide) (by decide) (by decide)).trans ?_⟩
  · rfl
  · rfl

theorem strMapSet_not_mem {m : List (String × String)} {k : String} (v : String)
    (h : k ∉ m.map Prod.fst) : strMapSet m k v = m ++ [(k, v)] := by
  unfold strMapSet
  have : m.any (fun p => p.1 == k) = false := by
    rw [Bool.eq_false_iff]
    intro hc
    rcases List.any_eq_true.mp hc with ⟨p, hp, he⟩
    exact h (List.mem_map.mpr ⟨p, hp, beq_iff_eq.mp he⟩)
  simp [this]

theorem packKeyValuePair_foldl_aux (m : List (String × String)) :
    ∀ acc : List (String × String), (m.map Prod.fst).Nodup →
    (∀ j ∈ m.map Prod.fst, j ∉ acc.map Prod.fst) →
    List.foldl (fun mm kv => strMapSet mm kv.name kv.value) acc (unpackKeyValuePair m) =
      acc ++ m := by
  induction m with
  | nil => intro acc _ _; simp [unpackKeyValuePair]
  | cons p t ih =>
    intro acc hnd hdis
    rcases p with ⟨k, v⟩
    rw [List.map_cons, List.nodup_cons] at hnd
    have hk : k ∉ acc.map Prod.fst := hdis k (by simp)
    have step : strMapSet acc k v = acc ++ [(k, v)] := strMapSet_not_mem v hk
    have hdis' : ∀ j ∈ t.map Prod.fst, j ∉ (acc ++ [(k, v)]).map Prod.fst := by
      intro j hj
      have hjk : j ≠ k := by
        intro he
        exact hnd.1 (he ▸ hj)
      have hja : j ∉ acc.map Prod.fst := hdis j (by simp [hj])
      simp [List.map_append, hja, hjk]
    have step1 : List.foldl (fun mm kv => strMapSet mm kv.name kv.value) acc
        (unpackKeyValuePair ((k, v) :: t)) =
        List.foldl (fun mm kv => strMapSet mm kv.name kv.value) (acc ++ [(k, v)])
          (unpackKeyValuePair t) := by
      simp [unpackKeyValuePair, step]
    rw [step1, ih (acc ++ [(k, v)]) hnd.2 hdis']
    simp

/-- C10: for every header map with unique names, unpacking it into
`KeyValuePair` entries and packing that list back yields the original map. -/
theorem packKeyValuePair_unpackKeyValuePair (m : List (String × String))
    (h : (m.map Prod.fst).Nodup) :
    packKeyValuePair (unpackKeyValuePair m) = m := by
  have := packKeyValuePair_foldl_aux m [] h (by simp)
  simpa [packKeyValuePair] using this

/-- C10 witness: the round trip is the identity on a concrete two-header map. -/
theorem packKeyValuePair_unpackKeyValuePair_witness :
    ((([("a", "1"), ("b", "2")] : List (String × String)).map Prod.fst).Nodup)
    ∧ packKeyValuePair (unpackKeyValuePair [("a", "1"), ("b", "2")]) =
        [("a", "1"), ("b", "2")] :=
  ⟨by decide, packKeyValuePair_unpackKeyValuePair _ (by decide)⟩

theorem packSecret_foldl_no_match (t : List RawHandler) (u : String) (a : String)
    (h : ∀ x ∈ t, x.url ≠ u) :
    List.foldl (fun secret hd => if hd.url == u then hd.secret.getD "" else secret) a t
      = a := by
  induction t generalizing a with
  | nil => rfl
  | cons x t ih =>
    have hx : (x.url == u) = false := beq_eq_false_iff_ne.mpr (h x (by simp))
    simp only [List.foldl_cons, hx, Bool.false_eq_true, if_false]
    exact ih a (fun y hy => h y (by simp [hy]))

theorem packSecret_eq_find (sh : List RawHandler) (u : String)
    (hnd : (sh.map (fun h => h.url)).Nodup) :
    packSecret sh u =
      ((sh.find? (fun l => l.url == u)).map (fun l => l.secret.getD "")).getD "" := by
  induction sh with
  | nil => rfl
  | cons h t ih =>
    rw [List.map_cons, List.nodup_cons] at hnd
    rcases hnd with ⟨hhead, htail⟩
    by_cases hu : h.url = u
    · have hb : (h.url == u) = true := beq_iff_eq.mpr hu
      have hnomatch : ∀ x ∈ t, x.url ≠ u := by
        intro x hx he
        exact hhead (by
          subst hu
          exact List.mem_map.mpr ⟨x, hx, he⟩)
      simp only [packSecret, List.foldl_cons, hb, if_true, List.find?, Option.map_some,
        Option.getD_some]
      exact packSecret_foldl_no_match t u _ hnomatch
    · have hb : (h.url == u) = false := beq_eq_false_iff_ne.mpr hu
      simp only [packSecret, List.foldl_cons, hb, Bool.false_eq_true, if_false, List.find?]
      exact ih htail

/-- C3: under the invariant that local-state handler urls are unique,
`packHandlers` packs each remote handler with the secret of the local handler
having exactly the same url (empty string when there is none) and copies the
remaining fields from the remote handler. -/
theorem packHandlers_spec (sh : List RawHandler) (hs : List Handler)
    (hnd : (sh.map (fun h => h.url)).Nodup) :
    packHandlers sh hs = hs.map (fun h =>
      { url := h.url
        secret :=
          ((sh.find? (fun l => l.url == h.url)).map (fun l => l.secret.getD "")).getD ""
        use_secret_for_signing := h.useSecretForSigning
        proxy := h.proxy
        custom_http_headers := h.customHttpHeaders.map packKeyValuePair }) := by
  unfold packHandlers
  refine List.map_congr_left ?_
  intro h _
  rw [packSecret_eq_find sh h.url hnd]

/-- C3 witness: the spec's handler round trip — a remote handler whose url is
known locally gets the local secret back, one with an unknown url gets the
empty secret, and the other fields are copied. -/
theorem packHandlers_spec_witness :
    (([⟨"https://x", some "s", none, none, none⟩] :
        List RawHandler).map (fun h => h.url)).Nodup
    ∧ packHandlers [⟨"https://x", some "s", none, none, none⟩]
        [⟨"webhook", "https://x", "", true, "p1", none⟩,
         ⟨"webhook", "https://y", "", false, "p2", none⟩] =
      [⟨"https://x", "s", true, "p1", none⟩,
       ⟨"https://y", "", false, "p2", none⟩] := by
  refine ⟨by decide, ?_⟩
  rw [packHandlers_spec _ _ (by decide)]
  rfl

/-- C9: `unpackHandlers` keeps exactly the entries with a non-empty url, in
order, converting each to a wire `Handler` of type `"webhook"` that carries
over the secret, the signing flag, the proxy and the custom-header mapping;
every produced handler has a non-empty url. -/
theorem unpackHandlers_spec (entries : List RawHandler) :
    unpackHandlers entries = (entries.filter (fun h => h.url != "")).map (fun h =>
      { handlerType := "webhook"
        url := h.url
        secret := h.secret.getD ""
        useSecretForSigning := h.use_secret_for_signing.getD false
        proxy := h.proxy.getD ""
        customHttpHeaders := h.custom_http_headers.map unpackKeyValuePair })
    ∧ ∀ h ∈ unpackHandlers entries, h.url ≠ "" ∧ h.handlerType = "webhook" := by
  have heq : unpackHandlers entries =
      (entries.filter (fun h => h.url != "")).map (fun h =>
        { handlerType := "webhook"
          url := h.url
          secret := h.secret.getD ""
          useSecretForSigning := h.use_secret_for_signing.getD false
          proxy := h.proxy.getD ""
          customHttpHeaders := h.custom_http_headers.map unpackKeyValuePair }) := by
    induction entries with
    | nil => rfl
    | cons h t ih =>
      by_cases hu : h.url = ""
      · simp [unpackHandlers, hu, List.filter_cons, ih]
      · have hb : (h.url != "") = true := bne_iff_ne.mpr hu
        simp [unpackHandlers, hb, List.filter_cons, ih]
  refine ⟨heq, ?_⟩
  intro h hmem
  rw [heq] at hmem
  rcases List.mem_map.mp hmem with ⟨r, hr, rfl⟩
  exact ⟨bne_iff_ne.mp (List.mem_filter.mp hr).2, rfl⟩

/-- C9 witness: a spurious empty-url entry is skipped and a real entry is
converted, with its fields carried over. -/
theorem unpackHandlers_spec_witness :
    (⟨"webhook", "https://x", "s", true, "p", some [⟨"a", "b"⟩]⟩ : Handler).url ≠ ""
    ∧ (⟨"webhook", "https://x", "s", true, "p", some [⟨"a", "b"⟩]⟩ :
        Handler).handlerType = "webhook" :=
  (unpackHandlers_spec
    [⟨"", none, none, none, none⟩,
     ⟨"https://x", some "s", some true, some "p", some [("a", "b")]⟩]).2
    ⟨"webhook", "https://x", "s", true, "p", some [⟨"a", "b"⟩]⟩ (by decide)

theorem checkEventTypes_ok_iff (d : String) (sup : List String) (ts : List String) :
    checkEventTypes d sup ts = Except.ok () ↔ ∀ t ∈ ts, t ∈ sup := by
  induction ts with
  | nil => simp [checkEventTypes]
  | cons t ts ih =>
    by_cases ht : t ∈ sup
    · have hb : sup.contains t = true := List.elem_eq_true_of_mem ht
      simp [checkEventTypes, hb, ih, ht]
    · have hb : sup.contains t = false := by
        rw [Bool.eq_false_iff]
        intro hc
        exact ht (List.mem_of_elem_eq_true hc)
      simp [checkEventTypes, hb, ht]

theorem checkEventTypes_err (d : String) (sup : List String) (ts : List String)
    (h : ∃ t ∈ ts, t ∉ sup) :
    ∃ t ∈ ts, t ∉ sup ∧ checkEventTypes d sup ts =
      Except.error ("event_type " ++ t ++ " not supported for domain " ++ d) := by
  induction ts with
  | nil => simp at h
  | cons t ts ih =>
    by_cases ht : t ∈ sup
    · have hb : sup.contains t = true := List.elem_eq_true_of_mem ht
      rcases h with ⟨u, hu, hus⟩
      have hu' : u ∈ ts := by
        rcases List.mem_cons.mp hu with rfl | h'
        · exact absurd ht hus
        · exact h'
      rcases ih ⟨u, hu', hus⟩ with ⟨w, hw, hws, hwe⟩
      refine ⟨w, List.mem_cons_of_mem _ hw, hws, ?_⟩
      have hstep : checkEventTypes d sup (t :: ts) = checkEventTypes d sup ts := by
        simp only [checkEventTypes, hb, if_true]
      rw [hstep]
      exact hwe
    · have hb : sup.contains t = false := by
        rw [Bool.eq_false_iff]
        intro hc
        exact ht (List.mem_of_elem_eq_true hc)
      refine ⟨t, by simp, ht, ?_⟩
      simp only [checkEventTypes, hb, Bool.false_eq_true, if_false]

/-- C2: for a domain of the 12-domain enumeration, `eventTypesDiff` succeeds
iff every requested event type is in `DomainEventTypesSupported[domain]`, and
when some requested type is outside that set it fails with an error naming the
offending type and the domain. -/
theorem eventTypesDiff_spec (domain : String) (hd : domain ∈ TypesSupported)
    (eventTypes : List String) :
    (eventTypesDiff domain eventTypes = Except.ok () ↔
      ∀ t ∈ eventTypes, t ∈ supportedEventTypes domain)
    ∧ ((∃ t ∈ eventTypes, t ∉ supportedEventTypes domain) →
        ∃ t ∈ eventTypes, t ∉ supportedEventTypes domain ∧
          eventTypesDiff domain eventTypes =
            Except.error ("event_type " ++ t ++ " not supported for domain " ++ domain)) := by
  unfold eventTypesDiff
  cases eventTypes with
  | nil => simp
  | cons t ts =>
    simp only [List.isEmpty_cons, Bool.false_eq_true, if_false]
    exact ⟨checkEventTypes_ok_iff domain _ (t :: ts),
      checkEventTypes_err domain _ (t :: ts)⟩

/-- C2 witness: for the `docker` domain, the supported type `pushed` together
with the unknown type `bogus` triggers the named error, and the success
characterization holds. -/
theorem eventTypesDiff_spec_witness :
    (eventTypesDiff "docker" ["pushed", "bogus"] = Except.ok () ↔
      ∀ t ∈ ["pushed", "bogus"], t ∈ supportedEventTypes "docker")
    ∧ ((∃ t ∈ ["pushed", "bogus"], t ∉ supportedEventTypes "docker") →
        ∃ t ∈ ["pushed", "bogus"], t ∉ supportedEventTypes "docker" ∧
          eventTypesDiff "docker" ["pushed", "bogus"] =
            Except.error ("event_type " ++ t ++ " not supported for domain " ++ "docker")) :=
  eventTypesDiff_spec "docker" (by decide) ["pushed", "bogus"]

/-- C1 counterexample: with two criteria blocks, `unpackCriteria` returns
`nil` — it does not unpack the first block, although unpacking that block
alone would produce a criteria variant. -/
theorem unpackCriteria_two_blocks_counterexample :
    unpackCriteria [{ include_patterns := ["a"] }, { include_patterns := ["b"] }]
        "user" = none
    ∧ unpackCriteria [{ include_patterns := ["a"] }] "user" =
        some WebhookCriteria.empty := by
  exact ⟨rfl, rfl⟩

/-- C1 (amended): `unpackCriteria` unpacks only when the criteria set contains
exactly one block — one block (for a domain of the enumeration) yields the
variant extracted from that block, while zero blocks or more than one block
yield nothing (nil). -/
theorem unpackCriteria_spec (criteria : List RawCriteria) (webhookType : String) :
    (criteria.length ≠ 1 → unpackCriteria criteria webhookType = none)
    ∧ (∀ id, criteria = [id] → webhookType ∈ TypesSupported →
        ∃ f, domainUnpackLookup.lookup webhookType = some f ∧
          unpackCriteria criteria webhookType =
            some (f id ⟨id.include_patterns, id.exclude_patterns⟩)) := by
  constructor
  · intro hlen
    cases criteria with
    | nil => rfl
    | cons a t =>
      cases t with
      | nil => exact absurd rfl hlen
      | cons b t2 => rfl
  · intro id hcrit hmem
    subst hcrit
    have hkeys : domainUnpackLookup.map Prod.fst = TypesSupported := rfl
    have hsome : (domainUnpackLookup.lookup webhookType).isSome = true :=
      (lookup_isSome_iff_mem _ _).mpr (hkeys ▸ hmem)
    rcases Option.isSome_iff_exists.mp hsome with ⟨f, hf⟩
    exact ⟨f, hf, by simp [unpackCriteria, hf]⟩

/-- C1 witness: zero blocks give `nil`, and a single block for the `docker`
domain is unpacked through the domain's extractor. -/
theorem unpackCriteria_spec_witness :
    unpackCriteria [] "docker" = none
    ∧ ∃ f, domainUnpackLookup.lookup "docker" = some f ∧
        unpackCriteria [{ include_patterns := ["a*"] }] "docker" =
          some (f { include_patterns := ["a*"] } ⟨["a*"], []⟩) :=
  ⟨(unpackCriteria_spec [] "docker").1 (by decide),
   (unpackCriteria_spec [{ include_patterns := ["a*"] }] "docker").2
     { include_patterns := ["a*"] } rfl (by decide)⟩

theorem lookup_none_iff_of_isSome_iff {α : Type} {o : Option α} {P : Prop}
    (h : o.isSome = true ↔ P) : o = none ↔ ¬P := by
  cases o with
  | none =>
    simp only [Option.isSome_none, Bool.false_eq_true, false_iff] at h
    simpa using h
  | some a =>
    simp only [Option.isSome_some, true_iff] at h
    simp [h]

/-- C6: every lookup table of the domain registry — criteria zero values,
pack, unpack, validation, schema, and the event-type sets — has an entry
exactly for the 12 enumerated domains: lookups of enumerated domains all
succeed, and a lookup of any domain outside the enumeration finds no entry
(Go's zero value, whose use fails fast instead of acting as a default). -/
theorem domainRegistry_total (d : String) :
    ((domainCriteriaLookup.lookup d).isSome = true ↔ d ∈ TypesSupported)
    ∧ ((domainPackLookup.lookup d).isSome = true ↔ d ∈ TypesSupported)
    ∧ ((domainUnpackLookup.lookup d).isSome = true ↔ d ∈ TypesSupported)
    ∧ ((domainCriteriaValidationLookup.lookup d).isSome = true ↔ d ∈ TypesSupported)
    ∧ (∀ version isCustom webhookType,
        ((domainSchemaLookup version isCustom webhookType).lookup d).isSome = true ↔
          d ∈ TypesSupported)
    ∧ ((DomainEventTypesSupported.lookup d).isSome = true ↔ d ∈ TypesSupported)
    ∧ (domainCriteriaLookup.lookup d = none ↔ d ∉ TypesSupported)
    ∧ (domainUnpackLookup.lookup d = none ↔ d ∉ TypesSupported) := by
  have h1 : (domainCriteriaLookup.lookup d).isSome = true ↔ d ∈ TypesSupported := by
    have h := lookup_isSome_iff_mem domainCriteriaLookup d
    rwa [show domainCriteriaLookup.map Prod.fst = TypesSupported from rfl] at h
  have h2 : (domainPackLookup.lookup d).isSome = true ↔ d ∈ TypesSupported := by
    have h := lookup_isSome_iff_mem domainPackLookup d
    rwa [show domainPackLookup.map Prod.fst = TypesSupported from rfl] at h
  have h3 : (domainUnpackLookup.lookup d).isSome = true ↔ d ∈ TypesSupported := by
    have h := lookup_isSome_iff_mem domainUnpackLookup d
    rwa [show domainUnpackLookup.map Prod.fst = TypesSupported from rfl] at h
  have h4 : (domainCriteriaValidationLookup.lookup d).isSome = true ↔
      d ∈ TypesSupported := by
    have h := lookup_isSome_iff_mem domainCriteriaValidationLookup d
    rwa [show domainCriteriaValidationLookup.map Prod.fst = TypesSupported from rfl] at h
  have h6 : (DomainEventTypesSupported.lookup d).isSome = true ↔ d ∈ TypesSupported := by
    have h := lookup_isSome_iff_mem DomainEventTypesSupported d
    rwa [show DomainEventTypesSupported.map Prod.fst = TypesSupported from rfl] at h
  refine ⟨h1, h2, h3, h4, ?_, h6, lookup_none_iff_of_isSome_iff h1,
    lookup_none_iff_of_isSome_iff h3⟩
  intro version isCustom webhookType
  have h := lookup_isSome_iff_mem (domainSchemaLookup version isCustom webhookType) d
  rwa [show (domainSchemaLookup version isCustom webhookType).map Prod.fst =
    TypesSupported from rfl] at h

/-- C7: `createWebhook` surfaces a transport error or an error response
without touching the resource state (in particular the identity), and only on
a confirmed successful create response sets the identity to the subscription's
key and then performs a read. -/
theorem createWebhook_spec (st : ResourceState) (webhook : BaseParams)
    (createRes : TransportResult) (createErrBody : String)
    (readRes : TransportResult) (readDecoded : BaseParams) (readErrBody : String) :
    (∀ msg, createRes = TransportResult.transportError msg →
      createWebhook st webhook createRes createErrBody readRes readDecoded readErrBody =
        (st, some msg))
    ∧ (∀ r, createRes = TransportResult.response r → isErrorResp r = true →
      createWebhook st webhook createRes createErrBody readRes readDecoded readErrBody =
        (st, some createErrBody))
    ∧ (∀ r, createRes = TransportResult.response r → isErrorResp r = false →
      createWebhook st webhook createRes createErrBody readRes readDecoded readErrBody =
        readWebhook { st with id := webhook.Id } readRes readDecoded readErrBody) := by
  refine ⟨?_, ?_, ?_⟩
  · intro msg hres
    subst hres
    rfl
  · intro r hres herr
    subst hres
    simp [createWebhook, herr]
  · intro r hres herr
    subst hres
    simp [createWebhook, herr]

/-- C7 witness: a 400 create response leaves the old identity in place and
surfaces the error body; a 200 create response hands off to a read with the
identity set to the webhook's key. -/
theorem createWebhook_spec_witness :
    createWebhook ⟨"old", none⟩
        ⟨"wh1", "", true, ⟨"docker", ["pushed"], none⟩, []⟩
        (TransportResult.response ⟨400, ""⟩) "bad request"
        (TransportResult.response ⟨200, ""⟩)
        ⟨"wh1", "", true, ⟨"docker", ["pushed"], none⟩, []⟩ "" =
      (⟨"old", none⟩, some "bad request")
    ∧ createWebhook ⟨"old", none⟩
        ⟨"wh1", "", true, ⟨"docker", ["pushed"], none⟩, []⟩
        (TransportResult.response ⟨200, ""⟩) "bad request"
        (TransportResult.response ⟨200, ""⟩)
        ⟨"wh1", "", true, ⟨"docker", ["pushed"], none⟩, []⟩ "" =
      readWebhook ⟨"wh1", none⟩ (TransportResult.response ⟨200, ""⟩)
        ⟨"wh1", "", true, ⟨"docker", ["pushed"], none⟩, []⟩ "" :=
  ⟨(createWebhook_spec ⟨"old", none⟩ _ _ _ _ _ _).2.1 ⟨400, ""⟩ rfl (by decide),
   (createWebhook_spec ⟨"old", none⟩ _ _ _ _ _ _).2.2 ⟨200, ""⟩ rfl (by decide)⟩

/-- C8: for read and delete, a 404 response clears the resource identity and
returns no error, while any other error response is surfaced as an error and
leaves the state untouched. -/
theorem notFound_spec (st : ResourceState) (res : TransportResult)
    (decoded : BaseParams) (errBody : String) :
    (∀ r, res = TransportResult.response r → r.statusCode = 404 →
      readWebhook st res decoded errBody = ({ st with id := "" }, none)
      ∧ deleteWebhook st res errBody = ({ st with id := "" }, none))
    ∧ (∀ r, res = TransportResult.response r → r.statusCode ≠ 404 →
        isErrorResp r = true →
      readWebhook st res decoded errBody = (st, some errBody)
      ∧ deleteWebhook st res errBody = (st, some errBody)) := by
  constructor
  · intro r hres h404
    subst hres
    have hb : (r.statusCode == 404) = true := beq_iff_eq.mpr h404
    constructor
    · simp [readWebhook, hb]
    · simp [deleteWebhook, hb]
  · intro r hres h404 herr
    subst hres
    have hb : (r.statusCode == 404) = false := beq_eq_false_iff_ne.mpr h404
    constructor
    · simp [readWebhook, hb, herr]
    · simp [deleteWebhook, hb, herr]

/-- C8 witness: deleting and reading an already-absent key (404) succeed and
clear the identity, while a 500 response is surfaced on both paths. -/
theorem notFound_spec_witness :
    (readWebhook ⟨"k", none⟩ (TransportResult.response ⟨404, ""⟩)
        ⟨"", "", false, ⟨"", [], none⟩, []⟩ "boom" = (⟨"", none⟩, none)
      ∧ deleteWebhook ⟨"k", none⟩ (TransportResult.response ⟨404, ""⟩) "boom" =
        (⟨"", none⟩, none))
    ∧ (readWebhook ⟨"k", none⟩ (TransportResult.response ⟨500, ""⟩)
        ⟨"", "", false, ⟨"", [], none⟩, []⟩ "boom" = (⟨"k", none⟩, some "boom")
      ∧ deleteWebhook ⟨"k", none⟩ (TransportResult.response ⟨500, ""⟩) "boom" =
        (⟨"k", none⟩, some "boom")) :=
  ⟨(notFound_spec ⟨"k", none⟩ _ _ _).1 ⟨404, ""⟩ rfl rfl,
   (notFound_spec ⟨"k", none⟩ _ _ _).2 ⟨500, ""⟩ rfl (by decide) (by decide)⟩

theorem isPrefixOf_iff_exists (p l : List Char) :
    p.isPrefixOf l = true ↔ ∃ t, l = p ++ t := by
  induction p generalizing l with
  | nil => simp [List.isPrefixOf]
  | cons a p ih =>
    cases l with
    | nil => simp [List.isPrefixOf]
    | cons b l =>
      simp only [List.isPrefixOf, Bool.and_eq_true, beq_iff_eq, ih, List.cons_append]
      constructor
      · rintro ⟨rfl, t, rfl⟩
        exact ⟨t, rfl⟩
      · rintro ⟨t, he⟩
        injection he with he1 he2
        exact ⟨he1.symm, t, he2⟩

theorem findClose_iff (l : List Char) :
    findClose l = true ↔ ∃ x b, l = x ++ proxyPatClose ++ b ∧ newlineChar ∉ x := by
  induction l with
  | nil =>
    simp only [findClose, Bool.false_eq_true, false_iff]
    rintro ⟨x, b, hx, -⟩
    have hlen := congrArg List.length hx
    simp [proxyPatClose] at hlen
    omega
  | cons c cs ih =>
    simp only [findClose, Bool.or_eq_true, Bool.and_eq_true, bne_iff_ne]
    constructor
    · rintro (hpre | ⟨hc, hrec⟩)
      · rcases (isPrefixOf_iff_exists _ _).mp hpre with ⟨t, ht⟩
        exact ⟨[], t, by simpa using ht, by simp⟩
      · rcases ih.mp hrec with ⟨x, b, hx, hnl⟩
        refine ⟨c :: x, b, by simp [hx], ?_⟩
        simp only [List.mem_cons, not_or]
        exact ⟨fun he => hc he.symm, hnl⟩
    · rintro ⟨x, b, hx, hnl⟩
      cases x with
      | nil =>
        left
        exact (isPrefixOf_iff_exists _ _).mpr ⟨b, by simpa using hx⟩
      | cons d x =>
        right
        simp only [List.cons_append] at hx
        injection hx with hx1 hx2
        subst hx1
        simp only [List.mem_cons, not_or] at hnl
        exact ⟨fun he => hnl.1 he.symm, ih.mpr ⟨x, b, hx2, hnl.2⟩⟩

theorem scanProxy_iff (l : List Char) :
    scanProxy l = true ↔
      ∃ a t, l = a ++ proxyPatOpen ++ t ∧ findClose t = true := by
  induction l with
  | nil =>
    simp only [scanProxy, Bool.false_eq_true, false_iff]
    rintro ⟨a, t, hx, -⟩
    have hlen := congrArg List.length hx
    simp [proxyPatOpen] at hlen
    omega
  | cons c cs ih =>
    simp only [scanProxy, Bool.or_eq_true, Bool.and_eq_true]
    constructor
    · rintro (⟨hpre, hfc⟩ | hrec)
      · rcases (isPrefixOf_iff_exists _ _).mp hpre with ⟨t, ht⟩
        refine ⟨[], t, by simpa using ht, ?_⟩
        rw [ht, List.drop_left] at hfc
        exact hfc
      · rcases ih.mp hrec with ⟨a, t, hx, hfc⟩
        exact ⟨c :: a, t, by simp [hx], hfc⟩
    · rintro ⟨a, t, hx, hfc⟩
      cases a with
      | nil =>
        left
        simp only [List.nil_append] at hx
        refine ⟨(isPrefixOf_iff_exists _ _).mpr ⟨t, hx⟩, ?_⟩
        rw [hx, List.drop_left]
        exact hfc
      | cons d a =>
        right
        simp only [List.cons_append] at hx
        injection hx with hx1 hx2
        exact ih.mpr ⟨a, t, hx2, hfc⟩

/-- C5: the retry condition installed on create and on update is
`retryOnProxyError`, and it holds exactly when the response body matches the
unanchored pattern `proxy with key [quote].*[quote] not found` — i.e. iff the
body contains the opening literal, a newline-free gap, and the closing
literal; any body without such a match is not retried. -/
theorem retryOnProxyError_spec (response : HttpResponse) :
    createRetryCondition response = retryOnProxyError response
    ∧ updateRetryCondition response = retryOnProxyError response
    ∧ (retryOnProxyError response = true ↔
        ∃ a x b, response.body.toList =
            a ++ proxyPatOpen ++ x ++ proxyPatClose ++ b
          ∧ newlineChar ∉ x) := by
  refine ⟨rfl, rfl, ?_⟩
  unfold retryOnProxyError
  rw [scanProxy_iff]
  constructor
  · rintro ⟨a, t, hx, hfc⟩
    rcases (findClose_iff t).mp hfc with ⟨x, b, ht, hnl⟩
    refine ⟨a, x, b, ?_, hnl⟩
    rw [hx, ht]
    simp [List.append_assoc]
  · rintro ⟨a, x, b, hx, hnl⟩
    refine ⟨a, x ++ (proxyPatClose ++ b), ?_, (findClose_iff _).mpr ⟨x, b, by simp, hnl⟩⟩
    rw [hx]
    simp [List.append_assoc]

end Webhook







